import Mathlib

/-!
Shallow embedding of the Annothem backend (FastAPI image-annotation service).

The service manages two relational tables — `images` (metadata rows for
uploaded images) and `annotations` (at most one opaque JSON payload per
image) — plus an external blob store (Supabase Storage).  The relational
state is modelled as lists of rows in insertion order; SQLAlchemy's
`query(...).filter(...).first()` becomes `List.find?`, `.delete()` on a
filtered query becomes `List.filter` with the negated predicate, and the
in-place attribute update of a fetched ORM row becomes a `List.map` that
rewrites the row with the matching primary key.  Blob-store calls are
external effects: their outcomes (`write` succeeds or raises, `remove`
succeeds or raises) enter the model as explicit parameters, as do the
server-generated values (UUID, fresh primary keys, `func.now()` timestamps).

The annotation payload (`List[Dict[str, Any]]` in the source, a JSONB
column) is opaque to the service, so the element type is a type parameter
`α`: the service stores and returns values of `List α` without inspecting
them.
-/

namespace Annothem

/-- A row of the `images` table (`app/models/image.py`):
id (integer primary key), filename, storage_path, public_url,
created_at (server default `func.now()`, modelled as a `Nat` clock). -/
structure ImageRow where
  id : Nat
  filename : String
  storage_path : String
  public_url : String
  created_at : Nat
deriving DecidableEq, Repr

/-- A row of the `annotations` table (`app/models/annotation.py`):
id (integer primary key), image_id (foreign key to `images.id`),
data (JSONB payload, an opaque list of elements of type `α`),
updated_at (server default `func.now()`, refreshed `onupdate`). -/
structure AnnotationRow (α : Type) where
  id : Nat
  image_id : Nat
  data : List α
  updated_at : Nat
deriving DecidableEq, Repr

/-- The relational store: the `images` and `annotations` tables, rows in
insertion order. -/
structure DB (α : Type) where
  images : List ImageRow
  annotations : List (AnnotationRow α)
deriving DecidableEq, Repr

/-- The `{"status": ..., "message": ...}` JSON body returned by the
delete and save endpoints. -/
structure Msg where
  status : String
  message : String
deriving DecidableEq, Repr

/-- An HTTPException raised by a router: status code and detail string. -/
inductive ApiError where
  | http (status : Nat) (detail : String)
deriving DecidableEq, Repr

/-- Outcome of the Supabase Storage `upload` call: success, or an
exception carrying a message. -/
inductive BlobWriteOutcome where
  | ok
  | fail (e : String)
deriving DecidableEq, Repr

/-- Python's `s.split(".")` on the character list of `s`: splits at every
dot, keeping empty pieces; on a dotless string it returns the one-element
list holding the whole string, and it never returns an empty list. -/
def splitOnDot : List Char → List (List Char)
  | [] => [[]]
  | c :: cs =>
    if c = '.' then [] :: splitOnDot cs
    else
      match splitOnDot cs with
      | [] => [[c]]
      | w :: ws => (c :: w) :: ws

/-- `file.filename.split(".")[-1]` from `upload_image`
(`app/routers/images.py` line 31): the substring after the last dot, or
the whole filename when it has no dot. -/
def fileExt (filename : String) : String :=
  ((splitOnDot filename.data).getLastD []).asString

/-- `upload_image` (`app/routers/images.py` lines 28-58).
Derives the extension from the client filename, forms the storage path
`uuid ++ "." ++ ext`, and attempts the blob write.  If the blob store
raises, the handler re-raises HTTP 500 with the cause in the detail and
the database is untouched.  Otherwise it asks the blob store for the
public URL, inserts the new `images` row and commits.  `content_type` and
`content` are consumed only by the blob store; `publicUrlOf` is the blob
store's `get_public_url`; `uuid` the generated identifier; `newId` the
primary key the database assigns; `now` the `func.now()` timestamp. -/
def upload_image {α : Type} (filename content_type content : String)
    (blob : BlobWriteOutcome) (publicUrlOf : String → String)
    (uuid : String) (newId now : Nat) (db : DB α) :
    Except ApiError ImageRow × DB α :=
  let file_ext := fileExt filename
  let file_path := uuid ++ "." ++ file_ext
  match blob with
  | .fail e => (.error (.http 500 ("Supabase Upload Failed: " ++ e)), db)
  | .ok =>
    let public_url := publicUrlOf file_path
    let db_image : ImageRow :=
      { id := newId, filename := filename, storage_path := file_path,
        public_url := public_url, created_at := now }
    (.ok db_image, { db with images := db.images ++ [db_image] })

/-- `delete_image` (`app/routers/images.py` lines 60-83).
Looks the image up by id; raises HTTP 404 with no side effect when
absent.  Otherwise it attempts the blob removal — a failure
(`blobRemoveOk = false`) is only printed and never alters the outcome —
then deletes every `annotations` row with this `image_id`, deletes the
`images` row (by primary key), commits, and returns the success body. -/
def delete_image {α : Type} (image_id : Nat) (blobRemoveOk : Bool)
    (db : DB α) : Except ApiError Msg × DB α :=
  match db.images.find? (fun i => i.id == image_id) with
  | none => (.error (.http 404 "Image not found"), db)
  | some image =>
    (.ok { status := "success", message := "Image deleted" },
     { images := db.images.filter (fun i => i.id != image.id),
       annotations := db.annotations.filter (fun a => a.image_id != image_id) })

/-- `get_images` (`app/routers/images.py` lines 22-26):
`ORDER BY created_at DESC OFFSET skip LIMIT limit`.  The `ORDER BY` is
modelled as a stable sort by the (total, transitive) comparator
"created_at not smaller". -/
def imageLe (a b : ImageRow) : Prop :=
  b.created_at ≤ a.created_at

instance : DecidableRel imageLe := fun a b => Nat.decLe b.created_at a.created_at

instance : IsTotal ImageRow imageLe :=
  ⟨fun a b => Nat.le_total b.created_at a.created_at⟩

instance : IsTrans ImageRow imageLe :=
  ⟨fun _ _ _ hab hbc => Nat.le_trans hbc hab⟩

/-- `get_images` (`app/routers/images.py` lines 22-26): images sorted
newest first, then `offset skip` and `limit`. -/
def get_images {α : Type} (skip limit : Nat) (db : DB α) : List ImageRow :=
  (((db.images.insertionSort imageLe).drop skip).take limit)

/-- `get_annotations` (`app/routers/annotations.py` lines 14-21):
first `annotations` row with this `image_id`; empty list when none,
otherwise the row's `data` verbatim. -/
def get_annotations {α : Type} (image_id : Nat) (db : DB α) : List α :=
  match db.annotations.find? (fun a => a.image_id == image_id) with
  | none => []
  | some annotation => annotation.data

/-- The in-place ORM update performed by `save_annotations` when a row
already exists: the row with primary key `eid` gets the new `data` and a
refreshed `updated_at`; every other row is untouched. -/
def updateRow {α : Type} (eid : Nat) (payload : List α) (now : Nat)
    (a : AnnotationRow α) : AnnotationRow α :=
  if a.id == eid then { a with data := payload, updated_at := now } else a

/-- `save_annotations` (`app/routers/annotations.py` lines 24-42).
Upsert: if a row for `image_id` exists, replace its `data` wholesale
(`updated_at` refreshed by the column's `onupdate=func.now()`); otherwise
insert a fresh row (`newId` the assigned primary key, `now` the
timestamp).  Commits and returns the success body. -/
def save_annotations {α : Type} (image_id : Nat) (payload : List α)
    (newId now : Nat) (db : DB α) : Msg × DB α :=
  match db.annotations.find? (fun a => a.image_id == image_id) with
  | some existing =>
    ({ status := "success", message := "Annotations saved" },
     { db with annotations := db.annotations.map (updateRow existing.id payload now) })
  | none =>
    ({ status := "success", message := "Annotations saved" },
     { db with annotations :=
        db.annotations ++ [{ id := newId, image_id := image_id,
                             data := payload, updated_at := now }] })

/-- The `annotations` rows for a given image id. -/
def annRowsFor {α : Type} (db : DB α) (iid : Nat) : List (AnnotationRow α) :=
  db.annotations.filter (fun a => a.image_id == iid)

/-- The 1:0..1 invariant of the data model: at most one `annotations`
row per image id. -/
def AtMostOneAnnotationPerImage {α : Type} (db : DB α) : Prop :=
  ∀ iid, (annRowsFor db iid).length ≤ 1

/-- An empty store, used to evaluate the operations on concrete input. -/
def db0 : DB String := ⟨[], []⟩

/-- A concrete image row. -/
def img1 : ImageRow :=
  { id := 1, filename := "photo.png", storage_path := "deadbeef.png",
    public_url := "https://blob/deadbeef.png", created_at := 3 }

/-- A store holding one image and its annotation row. -/
def db1 : DB String := ⟨[img1], [⟨1, 1, ["rect"], 4⟩]⟩

/-- A store where the annotation row belongs to image id 7. -/
def dbAnn : DB String := ⟨[img1], [⟨1, 7, ["circle"], 4⟩]⟩

/-- A store with two images sharing the same `created_at` timestamp —
reachable, since two uploads can be assigned equal clock values. -/
def dbTie : DB String :=
  { images := [⟨1, "a.png", "u1.png", "https://blob/u1", 5⟩,
               ⟨2, "b.png", "u2.png", "https://blob/u2", 5⟩],
    annotations := [] }

section Lemmas

variable {α : Type}

theorem updateRow_image_id (eid : Nat) (payload : List α) (now : Nat)
    (a : AnnotationRow α) : (updateRow eid payload now a).image_id = a.image_id := by
  unfold updateRow
  split <;> rfl

theorem find?_map_pres {p : α → Bool} (f : α → α) (hf : ∀ x, p (f x) = p x) :
    ∀ l : List α, (l.map f).find? p = (l.find? p).map f := by
  intro l
  induction l with
  | nil => rfl
  | cons x xs ih =>
    cases hx : p x with
    | true =>
      rw [List.map_cons, List.find?_cons_of_pos _ ((hf x).trans hx),
        List.find?_cons_of_pos _ hx]
      rfl
    | false =>
      rw [List.map_cons, List.find?_cons_of_neg _ (by simp [hf x, hx]),
        List.find?_cons_of_neg _ (by simp [hx]), ih]

theorem filter_map_pres {p : α → Bool} (f : α → α) (hf : ∀ x, p (f x) = p x) :
    ∀ l : List α, (l.map f).filter p = (l.filter p).map f := by
  intro l
  induction l with
  | nil => rfl
  | cons x xs ih =>
    cases hx : p x with
    | true => simp [List.filter_cons, hf, hx, ih]
    | false => simp [List.filter_cons, hf, hx, ih]

theorem filter_eq_singleton_of_find? {p : α → Bool} :
    ∀ {l : List α} {a : α}, l.find? p = some a → (l.filter p).length ≤ 1 →
      l.filter p = [a] := by
  intro l
  induction l with
  | nil => intro a h; exact absurd h (by simp)
  | cons x xs ih =>
    intro a hfind hlen
    cases hx : p x with
    | true =>
      rw [List.find?_cons_of_pos _ hx] at hfind
      rw [List.filter_cons_of_pos hx] at hlen ⊢
      have hxa : x = a := Option.some_injective _ hfind
      have hxs : xs.filter p = [] := by
        have h1 : (xs.filter p).length + 1 ≤ 1 := by
          simpa [List.length_cons] using hlen
        exact List.length_eq_zero.mp (Nat.le_zero.mp (Nat.le_of_succ_le_succ h1))
      rw [hxs, hxa]
    | false =>
      rw [List.find?_cons_of_neg _ (by simp [hx])] at hfind
      rw [List.filter_cons_of_neg (by simp [hx])] at hlen ⊢
      exact ih hfind hlen

theorem filter_eq_nil_of_find?_none {p : α → Bool} {l : List α}
    (h : l.find? p = none) : l.filter p = [] :=
  List.filter_eq_nil_iff.mpr (List.find?_eq_none.mp h)

theorem splitOnDot_eq_of_no_dot :
    ∀ {l : List Char}, (∀ c ∈ l, c ≠ '.') → splitOnDot l = [l] := by
  intro l
  induction l with
  | nil => intro _; rfl
  | cons c cs ih =>
    intro h
    have hc : c ≠ '.' := h c (List.mem_cons_self c cs)
    have hcs := ih (fun x hx => h x (List.mem_cons_of_mem c hx))
    unfold splitOnDot
    rw [if_neg hc, hcs]

theorem fileExt_of_no_dot (filename : String) (h : '.' ∉ filename.data) :
    fileExt filename = filename := by
  unfold fileExt
  rw [splitOnDot_eq_of_no_dot (fun c hc he => h (he ▸ hc))]
  rfl

end Lemmas

/-- C1: if the blob store rejects the write during `upload`, the handler
fails with HTTP 500 carrying the underlying cause and the metadata store
is exactly the state before the call: no `images` row is created. -/
theorem upload_storage_write_failure_is_atomic {α : Type}
    (filename content_type content e : String) (publicUrlOf : String → String)
    (uuid : String) (newId now : Nat) (db : DB α) :
    (upload_image filename content_type content (.fail e) publicUrlOf uuid newId now db).1
        = .error (.http 500 ("Supabase Upload Failed: " ++ e)) ∧
    (upload_image filename content_type content (.fail e) publicUrlOf uuid newId now db).2
        = db :=
  ⟨rfl, rfl⟩

/-- C2: whenever `delete` returns the success marker — for either blob
removal outcome — the resulting store holds no `images` row with the
deleted id and no `annotations` row referencing it. -/
theorem delete_image_completeness {α : Type} (image_id : Nat) (b : Bool)
    (db : DB α) (m : Msg) (db' : DB α)
    (h : delete_image image_id b db = (.ok m, db')) :
    (∀ i ∈ db'.images, i.id ≠ image_id) ∧
    (∀ a ∈ db'.annotations, a.image_id ≠ image_id) := by
  unfold delete_image at h
  cases hfind : db.images.find? (fun i => i.id == image_id) with
  | none =>
    rw [hfind] at h
    exact Except.noConfusion (congrArg Prod.fst h)
  | some img =>
    rw [hfind] at h
    have himg : img.id = image_id := by simpa using List.find?_some hfind
    have hdb' : db' =
        { images := db.images.filter (fun i => i.id != img.id),
          annotations := db.annotations.filter (fun a => a.image_id != image_id) } :=
      (congrArg Prod.snd h).symm
    subst hdb'
    constructor
    · intro i hi
      have hne : i.id ≠ img.id := by simpa using (List.mem_filter.mp hi).2
      rw [himg] at hne
      exact hne
    · intro a ha
      simpa using (List.mem_filter.mp ha).2

/-- C2 witness: deleting image 1 from the one-image store `db1` leaves a
store with no row for id 1 in either table. -/
theorem delete_image_completeness_witness :
    (∀ i ∈ (⟨[], []⟩ : DB String).images, i.id ≠ 1) ∧
    (∀ a ∈ (⟨[], []⟩ : DB String).annotations, a.image_id ≠ 1) :=
  delete_image_completeness 1 false db1 ⟨"success", "Image deleted"⟩ ⟨[], []⟩ rfl

/-- C3: when the image exists, a blob-store removal failure during
`delete` is invisible: the whole operation (result and final store) is
identical to a delete whose removal succeeded, and it reports success —
the StorageRemoveError never reaches the client. -/
theorem delete_blob_remove_failure_not_surfaced {α : Type} (image_id : Nat)
    (db : DB α) (img : ImageRow)
    (h : db.images.find? (fun i => i.id == image_id) = some img) :
    delete_image image_id false db = delete_image image_id true db ∧
    (delete_image image_id false db).1 =
      .ok { status := "success", message := "Image deleted" } := by
  unfold delete_image
  rw [h]
  exact ⟨rfl, rfl⟩

/-- C3 witness: at the concrete store `db1`, deleting image 1 with a
failing blob removal equals deleting it with a succeeding one, and
succeeds. -/
theorem delete_blob_remove_failure_not_surfaced_witness :
    delete_image 1 false db1 = delete_image 1 true db1 ∧
    (delete_image 1 false db1).1 =
      .ok { status := "success", message := "Image deleted" } :=
  delete_blob_remove_failure_not_surfaced 1 db1 img1 rfl

/-- C4: when no `images` row has the requested id, `delete` raises
HTTP 404 "Image not found" and returns the store unchanged — no blob
removal outcome can matter and no row is touched. -/
theorem delete_not_found_no_side_effects {α : Type} (image_id : Nat)
    (b : Bool) (db : DB α)
    (h : db.images.find? (fun i => i.id == image_id) = none) :
    delete_image image_id b db = (.error (.http 404 "Image not found"), db) := by
  unfold delete_image
  rw [h]

/-- C4 witness: deleting image 3 from the empty store raises 404 and
leaves the store as it was. -/
theorem delete_not_found_no_side_effects_witness :
    delete_image 3 true db0 = (.error (.http 404 "Image not found"), db0) :=
  delete_not_found_no_side_effects 3 true db0 rfl

/-- C8: `get` on an image id with no annotation row returns the empty
list (it cannot raise — the handler is total), and on an id whose row
exists it returns that row's `data` verbatim. -/
theorem get_annotations_empty_or_verbatim {α : Type} (image_id : Nat)
    (db : DB α) :
    ((∀ a ∈ db.annotations, a.image_id ≠ image_id) →
      get_annotations image_id db = []) ∧
    (∀ r, db.annotations.find? (fun a => a.image_id == image_id) = some r →
      get_annotations image_id db = r.data) := by
  constructor
  · intro h
    unfold get_annotations
    rw [List.find?_eq_none.mpr (fun x hx => by simpa using h x hx)]
  · intro r hr
    unfold get_annotations
    rw [hr]

/-- C8 witness: on the store `dbAnn` (one annotation row for image 7),
`get 9` returns the empty list and `get 7` returns the stored payload. -/
theorem get_annotations_empty_or_verbatim_witness :
    get_annotations 9 dbAnn = [] ∧ get_annotations 7 dbAnn = ["circle"] :=
  ⟨(get_annotations_empty_or_verbatim 9 dbAnn).1 (by decide),
   (get_annotations_empty_or_verbatim 7 dbAnn).2 ⟨1, 7, ["circle"], 4⟩ rfl⟩

/-- C9 (counterexample): `list` is not strictly descending by
`created_at` on every store — in `dbTie` two images share the timestamp
5, and the returned page has created_at values `[5, 5]`, so no strict
descent holds between its adjacent elements. -/
theorem get_images_ties_not_strictly_descending :
    (get_images 0 10 dbTie).map ImageRow.created_at = [5, 5] ∧
    ¬ List.Pairwise (fun a b : ImageRow => b.created_at < a.created_at)
        (get_images 0 10 dbTie) := by
  decide

/-- C9 (amended): `list(skip, limit)` returns at most `limit` images,
ordered by `created_at` non-increasingly (strict descent can fail only
between equal timestamps), and the page is exactly the `skip`-th to
`(skip+limit)`-th entries of one fixed non-increasing rearrangement of
the whole table. -/
theorem get_images_pagination_sorted_desc {α : Type} (skip limit : Nat)
    (db : DB α) :
    ∃ all : List ImageRow, all.Perm db.images ∧ List.Sorted imageLe all ∧
      get_images skip limit db = (all.drop skip).take limit ∧
      (get_images skip limit db).length ≤ limit :=
  ⟨db.images.insertionSort imageLe, List.perm_insertionSort imageLe db.images,
   List.sorted_insertionSort imageLe db.images, rfl,
   List.length_take_le limit ((db.images.insertionSort imageLe).drop skip)⟩

/-- C10: an upload whose filename has no dot does not fail at extension
derivation — Python's `split(".")[-1]` yields the whole filename — so
the stored path is the random identifier, a dot, then the entire
original filename. -/
theorem upload_dotless_filename_extension {α : Type}
    (filename content_type content : String) (publicUrlOf : String → String)
    (uuid : String) (newId now : Nat) (db : DB α)
    (h : '.' ∉ filename.data) :
    (upload_image filename content_type content .ok publicUrlOf uuid newId now db).1 =
      .ok { id := newId, filename := filename,
            storage_path := uuid ++ "." ++ filename,
            public_url := publicUrlOf (uuid ++ "." ++ filename),
            created_at := now } := by
  simp only [upload_image]
  rw [fileExt_of_no_dot filename h]

/-- C10 witness: uploading "archive" (no dot) with uuid "u1" records
storage path `u1.archive`. -/
theorem upload_dotless_filename_extension_witness :
    (upload_image "archive" "image/png" "bytes" .ok
        (fun p => "https://blob/" ++ p) "u1" 1 5 db0).1 =
      .ok { id := 1, filename := "archive",
            storage_path := "u1" ++ "." ++ "archive",
            public_url := (fun p => "https://blob/" ++ p) ("u1" ++ "." ++ "archive"),
            created_at := 5 } :=
  upload_dotless_filename_extension "archive" "image/png" "bytes"
    (fun p => "https://blob/" ++ p) "u1" 1 5 db0 (by decide)

/-- C5: `save(id, D)` followed by `get(id)` returns exactly `D` — the
payload is stored and returned structurally unchanged (the statement is
parametric in the element type, so the service cannot inspect or rewrite
any element). -/
theorem save_then_get_roundtrip {α : Type} (image_id : Nat)
    (payload : List α) (newId now : Nat) (db : DB α) :
    get_annotations image_id (save_annotations image_id payload newId now db).2
      = payload := by
  cases hfind : db.annotations.find? (fun a => a.image_id == image_id) with
  | none =>
    simp only [save_annotations, hfind]
    unfold get_annotations
    rw [List.find?_append, hfind]
    simp
  | some ex =>
    simp only [save_annotations, hfind]
    unfold get_annotations
    rw [find?_map_pres (updateRow ex.id payload now)
        (fun x => by rw [updateRow_image_id]), hfind]
    simp [updateRow]

/-- C6: from a store obeying the 1:0..1 invariant at `image_id`, two
successive `save(id, D)` calls (with a non-decreasing clock) leave
exactly one annotation row for `id`; its data is `D` and its
`updated_at` after the second call is at least the one after the
first. -/
theorem save_twice_leaves_single_fresh_row {α : Type} (image_id : Nat)
    (payload : List α) (nid1 t1 nid2 t2 : Nat) (db : DB α)
    (hts : t1 ≤ t2) (hone : (annRowsFor db image_id).length ≤ 1) :
    ∃ r1 r2 : AnnotationRow α,
      annRowsFor (save_annotations image_id payload nid1 t1 db).2 image_id = [r1] ∧
      annRowsFor (save_annotations image_id payload nid2 t2
          (save_annotations image_id payload nid1 t1 db).2).2 image_id = [r2] ∧
      r2.data = payload ∧ r1.updated_at ≤ r2.updated_at := by
  cases hfind : db.annotations.find? (fun a => a.image_id == image_id) with
  | none =>
    have hnil : db.annotations.filter (fun a => a.image_id == image_id) = [] :=
      filter_eq_nil_of_find?_none hfind
    refine ⟨⟨nid1, image_id, payload, t1⟩,
            ⟨nid1, image_id, payload, t2⟩, ?_, ?_, rfl, hts⟩
    · simp only [save_annotations, hfind, annRowsFor]
      rw [List.filter_append, hnil]
      simp
    · have hfind2 : (db.annotations ++
          [(⟨nid1, image_id, payload, t1⟩ : AnnotationRow α)]).find?
            (fun a => a.image_id == image_id) =
          some ⟨nid1, image_id, payload, t1⟩ := by
        rw [List.find?_append, hfind]
        simp
      simp only [save_annotations, hfind, hfind2, annRowsFor]
      rw [filter_map_pres _ (fun x => by rw [updateRow_image_id]),
        List.filter_append, hnil]
      simp [updateRow]
  | some ex =>
    have hsing : db.annotations.filter (fun a => a.image_id == image_id) = [ex] :=
      filter_eq_singleton_of_find? hfind hone
    refine ⟨{ ex with data := payload, updated_at := t1 },
            { ex with data := payload, updated_at := t2 }, ?_, ?_, rfl, hts⟩
    · simp only [save_annotations, hfind, annRowsFor]
      rw [filter_map_pres _ (fun x => by rw [updateRow_image_id]), hsing]
      simp [updateRow]
    · have hfind2 : (db.annotations.map (updateRow ex.id payload t1)).find?
          (fun a => a.image_id == image_id) =
          some { ex with data := payload, updated_at := t1 } := by
        rw [find?_map_pres _ (fun x => by rw [updateRow_image_id]), hfind]
        simp [updateRow]
      simp only [save_annotations, hfind, hfind2, annRowsFor]
      rw [filter_map_pres _ (fun x => by rw [updateRow_image_id]),
        filter_map_pres _ (fun x => by rw [updateRow_image_id]), hsing]
      simp [updateRow]

/-- C6 witness: saving `["r"]` for image 5 twice on the empty store
leaves one row with that data and non-decreasing `updated_at`. -/
theorem save_twice_leaves_single_fresh_row_witness :
    ∃ r1 r2 : AnnotationRow String,
      annRowsFor (save_annotations 5 ["r"] 1 10 db0).2 5 = [r1] ∧
      annRowsFor (save_annotations 5 ["r"] 2 20
          (save_annotations 5 ["r"] 1 10 db0).2).2 5 = [r2] ∧
      r2.data = ["r"] ∧ r1.updated_at ≤ r2.updated_at :=
  save_twice_leaves_single_fresh_row 5 ["r"] 1 10 2 20 db0 (by decide) (by decide)

/-- C7: every state-modifying operation (upload for either blob outcome,
delete, save) preserves the invariant that at most one annotation row
exists per image id; `get_annotations` reads the store without returning
a modified one, so the invariant holds after every operation. -/
theorem operations_preserve_at_most_one_annotation {α : Type}
    (filename content_type content : String) (blob : BlobWriteOutcome)
    (publicUrlOf : String → String) (uuid : String) (upNewId upNow : Nat)
    (del_id : Nat) (b : Bool) (save_id : Nat) (payload : List α)
    (saveNewId saveNow : Nat) (db : DB α)
    (h : AtMostOneAnnotationPerImage db) :
    AtMostOneAnnotationPerImage
      (upload_image filename content_type content blob publicUrlOf uuid
        upNewId upNow db).2 ∧
    AtMostOneAnnotationPerImage (delete_image del_id b db).2 ∧
    AtMostOneAnnotationPerImage (save_annotations save_id payload
      saveNewId saveNow db).2 := by
  refine ⟨?_, ?_, ?_⟩
  · cases blob with
    | ok => exact h
    | fail e => exact h
  · cases hfind : db.images.find? (fun i => i.id == del_id) with
    | none =>
      intro iid
      simp only [delete_image, hfind]
      exact h iid
    | some img =>
      intro iid
      simp only [delete_image, hfind]
      show ((db.annotations.filter (fun a => a.image_id != del_id)).filter
          (fun a => a.image_id == iid)).length ≤ 1
      exact Nat.le_trans
        (List.Sublist.length_le
          (List.Sublist.filter _ (List.filter_sublist db.annotations)))
        (h iid)
  · cases hfind : db.annotations.find? (fun a => a.image_id == save_id) with
    | some ex =>
      intro iid
      simp only [save_annotations, hfind]
      show ((db.annotations.map (updateRow ex.id payload saveNow)).filter
          (fun a => a.image_id == iid)).length ≤ 1
      rw [filter_map_pres _ (fun x => by rw [updateRow_image_id]),
        List.length_map]
      exact h iid
    | none =>
      intro iid
      simp only [save_annotations, hfind]
      show ((db.annotations ++
          [(⟨saveNewId, save_id, payload, saveNow⟩ : AnnotationRow α)]).filter
          (fun a => a.image_id == iid)).length ≤ 1
      rw [List.filter_append]
      by_cases hc : save_id = iid
      · subst hc
        rw [filter_eq_nil_of_find?_none hfind]
        simp
      · have hnew :
            ((⟨saveNewId, save_id, payload, saveNow⟩ :
              AnnotationRow α).image_id == iid) = false := by
          simpa using hc
        simp only [List.filter_cons, hnew, Bool.false_eq_true, if_false,
          List.filter_nil, List.append_nil]
        exact h iid

/-- C7 witness: on the concrete store `db1` (one image, one annotation)
the invariant holds and is preserved by a concrete upload, delete and
save. -/
theorem operations_preserve_at_most_one_annotation_witness :
    AtMostOneAnnotationPerImage
      (upload_image "a.png" "image/png" "bytes" .ok
        (fun p => "https://blob/" ++ p) "u2" 2 6 db1).2 ∧
    AtMostOneAnnotationPerImage (delete_image 1 true db1).2 ∧
    AtMostOneAnnotationPerImage (save_annotations 1 ["tri"] 2 7 db1).2 :=
  operations_preserve_at_most_one_annotation "a.png" "image/png" "bytes"
    .ok (fun p => "https://blob/" ++ p) "u2" 2 6 1 true 1 ["tri"] 2 7 db1
    (by
      intro iid
      cases hb : ((1 : Nat) == iid) <;>
        simp [annRowsFor, db1, List.filter_cons, hb])

end Annothem
